import Mathlib

/-!
Verification development for the SJCET AttendPro attendance application
(`app.py`).  The application's core logic — section-alias resolution,
attendance storage, and the report/aggregation pipelines — is shallowly
embedded below; strings are modelled as lists of characters (`Str`),
matching Python's code-point string semantics for the ASCII data the
application handles.  SQLite tables are modelled as Lean lists, SQL
`TEXT` comparison (used by `BETWEEN` on ISO dates) as lexicographic
order on `Str`, and pandas operations (`groupby` with sorted keys,
`sort_values`, `unstack`, `merge`) as explicit list computations.
Where an ordering is left unspecified by SQL or pandas (tie order of an
unstable sort, `GROUP BY` output order), the model fixes a concrete
deterministic choice; no theorem below depends on that choice beyond
determinism itself.
-/

namespace AttendPro

/-- Strings as lists of characters (code points). -/
abbrev Str := List Char

/-! ## Section aliasing (app.py lines 202-261)

`_loose_key` is, in source order: `str(s).strip().lower()`, then
`.replace(" ", "")`, `.replace(".", "_")`, `.replace("-", "_")`. -/

/-- Python `str.strip()`: drop leading and trailing whitespace. -/
def strip (s : Str) : Str :=
  ((s.dropWhile Char.isWhitespace).reverse.dropWhile Char.isWhitespace).reverse

/-- The separator unification of `_loose_key`: `'.'` and `'-'` both become `'_'`. -/
def sepChar (c : Char) : Char := if c = '.' ∨ c = '-' then '_' else c

/-- Spec-side normal form, written from the spec's words: lower-case,
remove (internal) spaces, unify `'.'`/`'-'`/`'_'` to one separator.
Used to state what "differs only by letter case, spaces, or separator
choice" means, independently of the code's `_loose_key`. -/
def csNormal (s : Str) : Str :=
  (((s.map Char.toLower).filter (fun c => c ≠ ' ')).map sepChar)

/-- `_loose_key` from app.py: strip, lower-case, remove `' '`,
map `'.'` and `'-'` to `'_'` (the two `replace` calls act per character). -/
def looseKey (s : Str) : Str :=
  ((((strip s).map Char.toLower).filter (fun c => c ≠ ' ')).map sepChar)

/-- `ALIAS_TO_CANON` from app.py: keys are `_loose_key` of the listed alias
literals (several literals share a key and map to the same canonical id,
mirroring the Python dict where later duplicate keys overwrite equal values). -/
def ALIAS_TO_CANON : List (Str × Str) := [
  (looseKey "II-CSE_A".toList, "II-CSE_A".toList),
  (looseKey "II CSE A".toList, "II-CSE_A".toList),
  (looseKey "II-CSE.A".toList, "II-CSE_A".toList),
  (looseKey "II-CSE_B".toList, "II-CSE_B".toList),
  (looseKey "II CSE B".toList, "II-CSE_B".toList),
  (looseKey "II-CSE.B".toList, "II-CSE_B".toList),
  (looseKey "II-CSE_C".toList, "II-CSE_C".toList),
  (looseKey "II CSE C".toList, "II-CSE_C".toList),
  (looseKey "II-CSE.C".toList, "II-CSE_C".toList),
  (looseKey "II-CSD".toList,   "II-CSD".toList),
  (looseKey "CSE_DS".toList,   "II-CSD".toList),
  (looseKey "CSE.DS".toList,   "II-CSD".toList),
  (looseKey "II-CSE_DS".toList, "II-CSD".toList),
  (looseKey "II-CSE.DS".toList, "II-CSD".toList),
  (looseKey "II CSE DS".toList, "II-CSD".toList),
  (looseKey "III-CSE".toList,  "III-CSE".toList),
  (looseKey "III CSE".toList,  "III-CSE".toList),
  (looseKey "III-CSD".toList,  "III-CSD".toList),
  (looseKey "III CSD".toList,  "III-CSD".toList),
  (looseKey "lll-CSD".toList,  "III-CSD".toList)]

/-- Dictionary lookup `ALIAS_TO_CANON.get(k, default)` (first matching key;
keys repeat only with equal values, so this matches the Python dict). -/
def aliasLookup (k : Str) : Option Str :=
  (ALIAS_TO_CANON.find? (fun e => e.1 = k)).map (fun e => e.2)

/-- `normalize_section` from app.py: `ALIAS_TO_CANON.get(_loose_key(sec), sec)`. -/
def normalize_section (sec : Str) : Str :=
  (aliasLookup (looseKey sec)).getD sec

/-- Raw label differs from an alias only by letter case, by surrounding
whitespace, by internal spaces, or by `'.'` vs `'-'` vs `'_'`: after
stripping the surroundings, the two have the same spec-side normal form. -/
def VariantOf (raw al : Str) : Prop := csNormal (strip raw) = csNormal al

instance (raw al : Str) : Decidable (VariantOf raw al) :=
  inferInstanceAs (Decidable (csNormal (strip raw) = csNormal al))

theorem looseKey_eq_csNormal_strip (s : Str) : looseKey s = csNormal (strip s) := rfl

/-- C5 (amended): whitespace tolerance is limited to surrounding whitespace
and internal plain spaces.  For every raw label that, after stripping,
differs from a known alias only by case, internal spaces, or separator
choice, `normalize_section` yields that alias's canonical id; any label
whose loose key is not in the alias table passes through unchanged. -/
theorem normalize_section_resolves_variants :
    (∀ raw al canon : Str, VariantOf raw al →
      aliasLookup (csNormal al) = some canon →
      normalize_section raw = canon)
    ∧ (∀ raw : Str, aliasLookup (looseKey raw) = none →
      normalize_section raw = raw) := by
  constructor
  · intro raw al canon hv hl
    unfold normalize_section
    rw [looseKey_eq_csNormal_strip, hv, hl]
    rfl
  · intro raw hn
    unfold normalize_section
    rw [hn]
    rfl

/-- C5 counterexample: `"II\tCSE A"` differs from the known alias
`"II CSE A"` only by whitespace (an internal tab instead of a space), yet
`normalize_section` returns it unchanged instead of `"II-CSE_A"`:
`_loose_key` removes only the space character internally. -/
theorem normalize_section_tab_not_resolved :
    normalize_section "II\tCSE A".toList = "II\tCSE A".toList
    ∧ "II\tCSE A".toList ≠ "II-CSE_A".toList := by
  constructor
  · decide
  · decide

/-- Witness for the amended C5 theorem at concrete inputs:
`" ii-cse.b "` resolves like the alias `"II-CSE.B"`, and the unknown
label `"IV-ECE"` passes through unchanged. -/
theorem normalize_section_resolves_variants_witness :
    normalize_section " ii-cse.b ".toList = "II-CSE_B".toList
    ∧ normalize_section "IV-ECE".toList = "IV-ECE".toList :=
  ⟨normalize_section_resolves_variants.1 " ii-cse.b ".toList "II-CSE.B".toList
      "II-CSE_B".toList (by decide) (by decide),
    normalize_section_resolves_variants.2 "IV-ECE".toList (by decide)⟩

/-! ## Attendance store (app.py lines 266-377)

The SQLite tables `users`, `attendance_meta` and `attendance_rows` are
modelled as lists; `AUTOINCREMENT` of `attendance_meta.id` as an explicit
`nextMetaId` counter.  Dates and periods are stored as the strings the
code writes (`str(attendance_date)`, `str(period)`). -/

/-- One `attendance_meta` row. -/
structure MetaRow where
  id : Nat
  sec : Str
  date : Str
  period : Str
  submittedBy : Str
  createdAt : Str
deriving DecidableEq

/-- One `attendance_rows` row (`present` is stored as 1/0; modelled as `Bool`). -/
structure AttRow where
  metaId : Nat
  regd : Str
  name : Str
  present : Bool
  parentName : Str
  parentPhone : Str
deriving DecidableEq

/-- One `users` row. -/
structure UserRow where
  username : Str
  pwHash : Str
  role : Str
deriving DecidableEq

/-- The database state. -/
structure DB where
  metas : List MetaRow
  rows : List AttRow
  users : List UserRow
  nextMetaId : Nat
deriving DecidableEq

/-- One entry of the `rows` argument of `save_attendance_to_db` (the dict
built by the Faculty dashboard: Regd. No., Name, Present, Father Name,
Parent Ph.-1). -/
structure SubmitRow where
  regd : Str
  name : Str
  present : Bool
  fatherName : Str
  parentPhone : Str
deriving DecidableEq

/-- `save_attendance_to_db` from app.py: inserts one `attendance_meta` row
(with the generated `created_at`, passed here as the explicit `now`
argument standing for `datetime.now().isoformat()`) and one
`attendance_rows` row per entry of `rows`; returns the new meta id.
The function performs no validation of its arguments. -/
def save_attendance_to_db (db : DB) (sec date period submittedBy : Str)
    (now : Str) (rows : List SubmitRow) : DB × Nat :=
  let m : MetaRow := ⟨db.nextMetaId, sec, date, period, submittedBy, now⟩
  let newRows := rows.map (fun r =>
    AttRow.mk db.nextMetaId r.regd r.name r.present r.fatherName r.parentPhone)
  (⟨db.metas ++ [m], db.rows ++ newRows, db.users, db.nextMetaId + 1⟩, db.nextMetaId)

/-- `check_user` from app.py.  The password hash (`hash_password`, a salted
SHA-256) is an external computation; it enters the model as the function
argument `hash`.  `SELECT ... WHERE username=?` on the primary key is the
first (unique) matching row. -/
def check_user (hash : Str → Str) (db : DB) (username password : Str) :
    Bool × Option Str :=
  match db.users.find? (fun u => u.username = username) with
  | none => (false, none)
  | some u => (u.pwHash == hash password, some u.role)

/-- C10: `check_user` returns the stored role as its second component even
when the password is wrong — a failed password check on an existing
username yields `(false, some role)`; only an unknown username yields
`(false, none)`. -/
theorem check_user_discloses_role :
    (∀ (hash : Str → Str) (db : DB) (uname pw : Str) (u : UserRow),
      db.users.find? (fun x => x.username = uname) = some u →
      u.pwHash ≠ hash pw →
      check_user hash db uname pw = (false, some u.role))
    ∧ (∀ (hash : Str → Str) (db : DB) (uname pw : Str),
      db.users.find? (fun x => x.username = uname) = none →
      check_user hash db uname pw = (false, none)) := by
  constructor
  · intro hash db uname pw u hf hne
    unfold check_user
    rw [hf]
    simp [beq_eq_false_iff_ne, hne]
  · intro hash db uname pw hf
    unfold check_user
    rw [hf]

/-- Concrete user table for the C10 witness. -/
def usersDB : DB :=
  ⟨[], [], [⟨"fac1".toList, "HASH1".toList, "Faculty".toList⟩], 1⟩

/-- Witness for C10: with an identity stand-in for the hash, a wrong
password on the stored user `fac1` still returns the role `Faculty`,
and an unknown username returns no role. -/
theorem check_user_discloses_role_witness :
    check_user (fun s => s) usersDB "fac1".toList "wrong".toList
      = (false, some "Faculty".toList)
    ∧ check_user (fun s => s) usersDB "nobody".toList "x".toList
      = (false, none) :=
  ⟨check_user_discloses_role.1 (fun s => s) usersDB "fac1".toList "wrong".toList
      ⟨"fac1".toList, "HASH1".toList, "Faculty".toList⟩ (by decide) (by decide),
    check_user_discloses_role.2 (fun s => s) usersDB "nobody".toList "x".toList
      (by decide)⟩

/-- C8 (amended): `save_attendance_to_db` performs no emptiness validation.
For every input — including one where every required field is the empty
string — it creates exactly one new session row carrying the generated
creation timestamp, appends one attendance row per submitted entry
(so with a non-empty `rows` list the session row is not its only side
effect), leaves the user table untouched, and returns the new id. -/
theorem save_attendance_unvalidated :
    ∀ (db : DB) (sec date period sb now : Str) (rows : List SubmitRow),
      (save_attendance_to_db db sec date period sb now rows).1.metas
          = db.metas ++ [⟨db.nextMetaId, sec, date, period, sb, now⟩]
      ∧ (save_attendance_to_db db sec date period sb now rows).1.rows
          = db.rows ++ rows.map (fun r =>
              AttRow.mk db.nextMetaId r.regd r.name r.present r.fatherName r.parentPhone)
      ∧ (save_attendance_to_db db sec date period sb now rows).1.users = db.users
      ∧ (save_attendance_to_db db sec date period sb now rows).2 = db.nextMetaId :=
  fun _ _ _ _ _ _ _ => ⟨rfl, rfl, rfl, rfl⟩

/-- C8 counterexample: submitting with every required field empty does not
fail — it creates a session row (and an attendance row), contradicting
"no session row is created for an empty-field submission". -/
theorem save_attendance_empty_fields_creates_row :
    (save_attendance_to_db ⟨[], [], [], 1⟩ [] [] [] [] []
        [⟨"R1".toList, "A".toList, true, [], []⟩]).1.metas.length = 1
    ∧ (save_attendance_to_db ⟨[], [], [], 1⟩ [] [] [] [] []
        [⟨"R1".toList, "A".toList, true, [], []⟩]).1.rows.length = 1 := by
  constructor
  · rfl
  · rfl

/-! ## Session queries and percentage rounding

`fetch_metas_for_section(sec, start, end)` runs
`SELECT ... WHERE section=? AND attendance_date BETWEEN ? AND ?
ORDER BY attendance_date, period`.  SQLite compares `TEXT` byte-wise,
which on the ISO date strings the app stores is lexicographic order on
`Str`.  `ORDER BY` leaves the relative order of tied rows unspecified;
the model uses a stable sort, so ties keep insertion order. -/

/-- Ranged `fetch_metas_for_section` (used by every date-window report). -/
def fetch_metas_for_section (db : DB) (sec start stop : Str) : List MetaRow :=
  List.insertionSort (fun a b => ([a.date, a.period] : List Str) ≤ [b.date, b.period])
    (db.metas.filter (fun m => m.sec = sec ∧ start ≤ m.date ∧ m.date ≤ stop))

/-- Percentage `round(p / t * 100, 2)`, represented in hundredths of a
percent.  Python's `round` (and pandas `.round(2)`) rounds the value
half-to-even in decimal; on quotients that are exactly representable
(`10000*p/t` landing on or around a tie) this integer computation is the
exact behaviour, and elsewhere the float and the exact rational round to
the same hundredth for all realistic class counts. -/
def pctHundredths (p t : Nat) : Nat :=
  let q := (10000 * p) / t
  let r := (10000 * p) % t
  if 2 * r < t then q
  else if t < 2 * r then q + 1
  else if q % 2 = 0 then q else q + 1

/-- Modelled from the spec: "percentages are rounded half-up to 2 decimals"
(a tie at the third decimal rounds away from zero).  Used only to compare
the spec's rounding rule with the code's. -/
def pctHalfUpHundredths (p t : Nat) : Nat :=
  let q := (10000 * p) / t
  let r := (10000 * p) % t
  if t ≤ 2 * r then q + 1 else q

/-- Quick Student Attendance % Lookup formula (app.py line 777):
`round(presents / total_classes * 100, 2) if total_classes else 0.0`. -/
def pctQuickHundredths (p t : Nat) : Nat :=
  if t ≠ 0 then pctHundredths p t else 0

/-! ## Attendance % (Date Range) branch (app.py lines 1083-1147)

The branch stops with an informational message when the window holds no
sessions, and again when the sessions hold no attendance rows; otherwise
it produces the percentage table, left-merged onto the roster CSV when
that file exists. -/

/-- One row of the percentage report: Regd. No., Name, Presents,
Total Classes, Absences, % Attendance (in hundredths). -/
structure PctRow where
  regd : Str
  name : Str
  presents : Nat
  totalClasses : Nat
  absences : Int
  pct : Nat
deriving DecidableEq

/-- Outcome of the Attendance % branch: `st.info` + `st.stop` when there
are no sessions, the same when there are no rows, or a rendered table. -/
inductive PctOutcome where
  | noSessions
  | noRows
  | table (rows : List PctRow)
deriving DecidableEq

/-- The per-student rows the branch rendered (none for the two stop outcomes). -/
def PctOutcome.tableRows : PctOutcome → List PctRow
  | .table t => t
  | _ => []

/-- Whether the branch produced a report table at all. -/
def PctOutcome.isTable : PctOutcome → Bool
  | .table _ => true
  | _ => false

/-- The SQL `GROUP BY regd_no, name` with `SUM(CASE WHEN present=1 ...)`,
followed by the pandas columns Total Classes, Absences and
`% Attendance` (all computed from the integer counts).  `GROUP BY`
output order is unspecified; the model lists the distinct keys in the
order `dedup` produces. -/
def pct_stats (total : Nat) (rows : List AttRow) : List PctRow :=
  ((rows.map (fun r => (r.regd, r.name))).dedup).map (fun k =>
    let presents := (rows.filter (fun r =>
      r.regd = k.1 ∧ r.name = k.2 ∧ r.present = true)).length
    ⟨k.1, k.2, presents, total, (total : Int) - presents, pctHundredths presents total⟩)

/-- The pandas left merge of the roster onto the stats, with
`fillna(Presents=0, Absences=total, Total Classes=total, %=0)`.
The stats' (regd, name) keys are distinct (they come from a `GROUP BY`),
so the left merge contributes exactly the first — unique — match. -/
def merge_roster (total : Nat) (roster : List (Str × Str)) (stats : List PctRow) :
    List PctRow :=
  roster.map (fun s =>
    match stats.find? (fun t => t.regd = s.1 ∧ t.name = s.2) with
    | some t => t
    | none => ⟨s.1, s.2, 0, total, (total : Int), 0⟩)

/-- The whole Attendance % (Date Range) branch.  `roster` is the parsed
`[["Regd. No.", "Name"]]` projection of the section's CSV, or `none`
when the CSV file does not exist (in which case the merge is skipped). -/
def attendance_pct_report (db : DB) (sec start stop : Str)
    (roster : Option (List (Str × Str))) : PctOutcome :=
  let metas := fetch_metas_for_section db sec start stop
  if metas = [] then .noSessions
  else
    let ids := metas.map (fun m => m.id)
    let rows := db.rows.filter (fun r => r.metaId ∈ ids)
    if rows = [] then .noRows
    else
      let stats := pct_stats ids.length rows
      match roster with
      | none => .table stats
      | some ro => .table (merge_roster ids.length ro stats)

/-- C2 (amended): for a window with zero sessions the branch short-circuits
with the "No attendance sessions in this date range" outcome — it raises
no division-by-zero error, but also produces no report rows; separately,
the quick-lookup percentage formula yields 0 outright when the total
class count is 0. -/
theorem pct_report_zero_sessions :
    (∀ (db : DB) (sec start stop : Str) (roster : Option (List (Str × Str))),
      fetch_metas_for_section db sec start stop = [] →
      attendance_pct_report db sec start stop roster = .noSessions)
    ∧ ∀ p : Nat, pctQuickHundredths p 0 = 0 := by
  constructor
  · intro db sec start stop roster h
    simp only [attendance_pct_report, h, if_pos]
  · intro p
    rfl

/-- Empty database (no sessions at all). -/
def emptyDB : DB := ⟨[], [], [], 1⟩

/-- C2 counterexample: over an empty window the branch emits no report at
all — contrary to the claim, the roster students are not reported with a
percentage of 0; there simply is no output table. -/
theorem pct_report_zero_sessions_counterexample :
    (attendance_pct_report emptyDB "S".toList "2024-01-01".toList "2024-01-31".toList
        (some [("R1".toList, "A".toList)])).isTable = false
    ∧ (attendance_pct_report emptyDB "S".toList "2024-01-01".toList "2024-01-31".toList
        (some [("R1".toList, "A".toList)])).tableRows = [] := by
  exact ⟨rfl, rfl⟩

/-- Witness for the amended C2 theorem on a concrete empty store. -/
theorem pct_report_zero_sessions_witness :
    attendance_pct_report emptyDB "S".toList "2024-01-01".toList "2024-01-31".toList
        (some [("R1".toList, "A".toList)]) = .noSessions
    ∧ pctQuickHundredths 7 0 = 0 :=
  ⟨pct_report_zero_sessions.1 emptyDB "S".toList "2024-01-01".toList "2024-01-31".toList
      (some [("R1".toList, "A".toList)]) (by decide),
    pct_report_zero_sessions.2 7⟩

/-- Every stats row's (regd, name) key is the key of some attendance row. -/
theorem pct_stats_key_from_rows (total : Nat) (rows : List AttRow) (t : PctRow)
    (ht : t ∈ pct_stats total rows) :
    ∃ r ∈ rows, r.regd = t.regd ∧ r.name = t.name := by
  unfold pct_stats at ht
  rw [List.mem_map] at ht
  obtain ⟨k, hk, rfl⟩ := ht
  rw [List.mem_dedup, List.mem_map] at hk
  obtain ⟨r, hr, hkr⟩ := hk
  exact ⟨r, hr, by rw [← hkr], by rw [← hkr]⟩

/-- C3 (amended): provided the window holds at least one session and those
sessions hold at least one attendance row, the left merge onto the roster
keeps every roster entry: a roster student with no matching attendance
row appears with Presents 0, Absences = Total Classes, and 0 %, and no
roster student is omitted.  (If the window's sessions hold no rows at
all, the branch instead stops before the merge — see the counterexample.) -/
theorem pct_report_left_join (db : DB) (sec start stop : Str)
    (roster : List (Str × Str))
    (hm : fetch_metas_for_section db sec start stop ≠ [])
    (hr : db.rows.filter (fun r =>
        r.metaId ∈ (fetch_metas_for_section db sec start stop).map (fun m => m.id)) ≠ []) :
    (∀ s ∈ roster,
      (∀ r ∈ db.rows.filter (fun r =>
          r.metaId ∈ (fetch_metas_for_section db sec start stop).map (fun m => m.id)),
        ¬(r.regd = s.1 ∧ r.name = s.2)) →
      PctRow.mk s.1 s.2 0 ((fetch_metas_for_section db sec start stop).map (fun m => m.id)).length
          (((fetch_metas_for_section db sec start stop).map (fun m => m.id)).length : Int) 0
        ∈ (attendance_pct_report db sec start stop (some roster)).tableRows)
    ∧ ∀ s ∈ roster,
      ∃ row ∈ (attendance_pct_report db sec start stop (some roster)).tableRows,
        row.regd = s.1 ∧ row.name = s.2 := by
  have hrep : attendance_pct_report db sec start stop (some roster)
      = .table (merge_roster ((fetch_metas_for_section db sec start stop).map
            (fun m => m.id)).length roster
          (pct_stats ((fetch_metas_for_section db sec start stop).map
            (fun m => m.id)).length
            (db.rows.filter (fun r =>
              r.metaId ∈ (fetch_metas_for_section db sec start stop).map (fun m => m.id))))) := by
    simp only [attendance_pct_report, if_neg hm, if_neg hr]
  rw [hrep]
  simp only [PctOutcome.tableRows]
  constructor
  · intro s hs hnone
    have hfind : (pct_stats ((fetch_metas_for_section db sec start stop).map
          (fun m => m.id)).length
          (db.rows.filter (fun r =>
            r.metaId ∈ (fetch_metas_for_section db sec start stop).map (fun m => m.id)))).find?
          (fun t => t.regd = s.1 ∧ t.name = s.2) = none := by
      rw [List.find?_eq_none]
      intro t ht hmatch
      obtain ⟨r, hrmem, hre, hna⟩ := pct_stats_key_from_rows _ _ t ht
      simp only [decide_eq_true_eq] at hmatch
      exact hnone r hrmem ⟨by rw [hre, hmatch.1], by rw [hna, hmatch.2]⟩
    refine List.mem_map.mpr ⟨s, hs, ?_⟩
    rw [hfind]
  · intro s hs
    refine ⟨_, List.mem_map.mpr ⟨s, hs, rfl⟩, ?_⟩
    cases hfind : (pct_stats ((fetch_metas_for_section db sec start stop).map
          (fun m => m.id)).length
          (db.rows.filter (fun r =>
            r.metaId ∈ (fetch_metas_for_section db sec start stop).map (fun m => m.id)))).find?
          (fun t => t.regd = s.1 ∧ t.name = s.2) with
    | none => exact ⟨rfl, rfl⟩
    | some t =>
      have := List.find?_some hfind
      simpa using this

/-- Store with one session in the window but zero attendance rows. -/
def c3DB : DB :=
  ⟨[⟨1, "S".toList, "2024-01-10".toList, "1".toList, "t".toList, "c".toList⟩], [], [], 2⟩

/-- C3 counterexample: the window holds a session but the sessions hold no
attendance rows; the branch then stops with "No attendance rows found"
and emits no table, so the roster student R1 — who has no attendance rows
in the window — does not appear with presences 0; no output row exists. -/
theorem pct_report_left_join_counterexample :
    PctRow.mk "R1".toList "A".toList 0 1 1 0
      ∉ (attendance_pct_report c3DB "S".toList "2024-01-01".toList "2024-01-31".toList
          (some [("R1".toList, "A".toList)])).tableRows := by
  decide

/-- Store with one session whose single row belongs to a different student. -/
def c3wDB : DB :=
  ⟨[⟨1, "S".toList, "2024-01-10".toList, "1".toList, "t".toList, "c".toList⟩],
    [⟨1, "R2".toList, "B".toList, false, "F".toList, "9".toList⟩], [], 2⟩

/-- Witness for the amended C3 theorem: R1 has a roster entry and no
attendance rows, and still receives the zero-filled report row. -/
theorem pct_report_left_join_witness :
    PctRow.mk "R1".toList "A".toList 0
        ((fetch_metas_for_section c3wDB "S".toList "2024-01-01".toList
          "2024-01-31".toList).map (fun m => m.id)).length
        (((fetch_metas_for_section c3wDB "S".toList "2024-01-01".toList
          "2024-01-31".toList).map (fun m => m.id)).length : Int) 0
      ∈ (attendance_pct_report c3wDB "S".toList "2024-01-01".toList "2024-01-31".toList
          (some [("R1".toList, "A".toList)])).tableRows :=
  (pct_report_left_join c3wDB "S".toList "2024-01-01".toList "2024-01-31".toList
      [("R1".toList, "A".toList)] (by decide) (by decide)).1
    ("R1".toList, "A".toList) (by decide) (by decide)

/-- C4 (amended): every row of the percentage report carries exact integer
counts and a percentage computed once from them — Total Classes is the
number of sessions in the window, Presents is the integer count of that
student's present rows across those sessions, Absences is the integer
difference, and the percentage is `p / t * 100` rounded half-to-EVEN (the
Python/pandas `round`) to two decimals, not half-up: a tie at the third
decimal goes to the even hundredth. -/
theorem pct_rows_exact_counts (db : DB) (sec start stop : Str)
    (hm : fetch_metas_for_section db sec start stop ≠ [])
    (hr : db.rows.filter (fun r =>
        r.metaId ∈ (fetch_metas_for_section db sec start stop).map (fun m => m.id)) ≠ []) :
    ∀ row ∈ (attendance_pct_report db sec start stop none).tableRows,
      row.totalClasses
          = ((fetch_metas_for_section db sec start stop).map (fun m => m.id)).length
      ∧ row.presents = ((db.rows.filter (fun r =>
            r.metaId ∈ (fetch_metas_for_section db sec start stop).map (fun m => m.id))).filter
          (fun r => r.regd = row.regd ∧ r.name = row.name ∧ r.present = true)).length
      ∧ row.absences = (row.totalClasses : Int) - row.presents
      ∧ row.pct = pctHundredths row.presents row.totalClasses := by
  have hrep : attendance_pct_report db sec start stop none
      = .table (pct_stats ((fetch_metas_for_section db sec start stop).map
            (fun m => m.id)).length
          (db.rows.filter (fun r =>
            r.metaId ∈ (fetch_metas_for_section db sec start stop).map (fun m => m.id)))) := by
    simp only [attendance_pct_report, if_neg hm, if_neg hr]
  rw [hrep]
  simp only [PctOutcome.tableRows]
  intro row hrow
  unfold pct_stats at hrow
  rw [List.mem_map] at hrow
  obtain ⟨k, hk, rfl⟩ := hrow
  exact ⟨rfl, rfl, rfl, rfl⟩

/-- Store with 32 sessions on one date and a single student row, present in
exactly one of them: p = 1, t = 32. -/
def c4DB : DB :=
  ⟨(List.range 32).map (fun i =>
      MetaRow.mk (i+1) "S".toList "2024-01-01".toList "1".toList "t".toList "c".toList),
    [⟨1, "R1".toList, "A".toList, true, [], []⟩], [], 33⟩

/-- C4 counterexample: with 1 present out of 32 classes the true percentage
is 3.125 %, a tie at the third decimal.  The report rounds it half-to-even
to 3.12 % (312 hundredths), while the claim's half-up rule demands
3.13 % (313 hundredths). -/
theorem pct_rounding_counterexample :
    (attendance_pct_report c4DB "S".toList "2024-01-01".toList "2024-01-01".toList
        none).tableRows
      = [⟨"R1".toList, "A".toList, 1, 32, 31, 312⟩]
    ∧ pctHalfUpHundredths 1 32 = 313
    ∧ (312 : Nat) ≠ 313 := by
  refine ⟨by decide, by decide, by decide⟩

/-- Store with two sessions, one present and one absent row for R1. -/
def c4wDB : DB :=
  ⟨[⟨1, "S".toList, "2024-01-10".toList, "1".toList, "t".toList, "c".toList⟩,
    ⟨2, "S".toList, "2024-01-11".toList, "2".toList, "t".toList, "c".toList⟩],
    [⟨1, "R1".toList, "A".toList, true, [], []⟩,
     ⟨2, "R1".toList, "A".toList, false, [], []⟩], [], 3⟩

/-- The report row for R1 over `c4wDB`: 1 of 2 classes = 50.00 %. -/
def c4wRow : PctRow := ⟨"R1".toList, "A".toList, 1, 2, 1, 5000⟩

/-- Witness for the amended C4 theorem at the concrete store `c4wDB`. -/
theorem pct_rows_exact_counts_witness :
    c4wRow.totalClasses
        = ((fetch_metas_for_section c4wDB "S".toList "2024-01-01".toList
            "2024-01-31".toList).map (fun m => m.id)).length
    ∧ c4wRow.presents = ((c4wDB.rows.filter (fun r =>
          r.metaId ∈ (fetch_metas_for_section c4wDB "S".toList "2024-01-01".toList
            "2024-01-31".toList).map (fun m => m.id))).filter
        (fun r => r.regd = c4wRow.regd ∧ r.name = c4wRow.name ∧ r.present = true)).length
    ∧ c4wRow.absences = (c4wRow.totalClasses : Int) - c4wRow.presents
    ∧ c4wRow.pct = pctHundredths c4wRow.presents c4wRow.totalClasses :=
  pct_rows_exact_counts c4wDB "S".toList "2024-01-01".toList "2024-01-31".toList
    (by decide) (by decide) c4wRow (by decide)

/-! ## Multi-session absentee roll-up (app.py lines 828-840, 867-924)

`aggregated_absentees_from_meta_ids` fetches the `present=0` rows of the
window's sessions; the branch then labels each row `"P{period} ({date})"`
via `meta_map`, groups by (Regd. No., Name, Parent Name, Parent Phone)
with pandas `groupby` (which sorts the group keys), aggregates
`', '.join(sorted(set(...)))` and a row count, and finally sorts by
Absence Count descending (`sort_values`; tie order unspecified by pandas,
stable in the model). -/

/-- The pandas grouping key (Regd. No., Name, Parent Name, Parent Phone);
pandas orders group keys by tuple-lexicographic comparison, which on
these 4-element lists is the lexicographic list order. -/
def keyOf (r : AttRow) : List Str := [r.regd, r.name, r.parentName, r.parentPhone]

/-- Python `', '.join(...)`. -/
def joinCommaSep (l : List Str) : Str := (l.intersperse ", ".toList).flatten

/-- Python `sorted(...)` on strings (code-point lexicographic). -/
def sortStrs (l : List Str) : List Str := List.insertionSort (fun a b => a ≤ b) l

/-- Group keys in the ascending order pandas `groupby` emits them. -/
def sortKeys (l : List (List Str)) : List (List Str) :=
  List.insertionSort (fun a b => a ≤ b) l

/-- The `Period_Date` label `f"P{meta_map[x]['period']} ({meta_map[x]['date']})"`;
`meta_map` holds the window's fetched sessions, keyed by id (first match —
ids are unique in any state the app itself builds). -/
def label_of (metas : List MetaRow) (r : AttRow) : Str :=
  match metas.find? (fun m => m.id = r.metaId) with
  | some m => "P".toList ++ m.period ++ " (".toList ++ m.date ++ ")".toList
  | none => []

/-- The absent rows of the window: `present=0 AND meta_id IN (window ids)`. -/
def window_absent (db : DB) (sec start stop : Str) : List AttRow :=
  db.rows.filter (fun r => r.present = false
    ∧ r.metaId ∈ (fetch_metas_for_section db sec start stop).map (fun m => m.id))

/-- One output row of the aggregated absentee report. -/
structure AggRow where
  regd : Str
  name : Str
  parentName : Str
  parentPhone : Str
  periodDate : Str
  count : Nat
deriving DecidableEq

/-- The grouped table before the final count sort: one row per distinct
group key, with the joined sorted de-duplicated label set and the group's
row count (pandas `agg` of `'meta_id': 'count'`). -/
def agg_group_rows (metas : List MetaRow) (df : List AttRow) : List AggRow :=
  (sortKeys (df.map keyOf).dedup).map (fun k =>
    AggRow.mk (k.getD 0 []) (k.getD 1 []) (k.getD 2 []) (k.getD 3 [])
      (joinCommaSep (sortStrs ((df.filter (fun r => keyOf r = k)).map
        (label_of metas)).dedup))
      (df.filter (fun r => keyOf r = k)).length)

/-- `sort_values("Absence Count", ascending=False)` order. -/
def countDescLe (a b : AggRow) : Prop := b.count ≤ a.count

instance : DecidableRel countDescLe :=
  fun a b => inferInstanceAs (Decidable (b.count ≤ a.count))

instance : IsTotal AggRow countDescLe := ⟨fun a b => Nat.le_total b.count a.count⟩

instance : IsTrans AggRow countDescLe := ⟨fun _ _ _ h1 h2 => Nat.le_trans h2 h1⟩

/-- The Aggregated (date / date-range) absentee roll-up: the branch runs it
with `start = stop` for a single date and with the picked range otherwise. -/
def agg_date_range (db : DB) (sec start stop : Str) : List AggRow :=
  List.insertionSort countDescLe
    (agg_group_rows (fetch_metas_for_section db sec start stop)
      (window_absent db sec start stop))

/-- A grouped key always is the 4-element key of one of the data rows. -/
theorem key_rebuild (df : List AttRow) (k : List Str)
    (hk : k ∈ (df.map keyOf).dedup) :
    [k.getD 0 [], k.getD 1 [], k.getD 2 [], k.getD 3 []] = k := by
  rw [List.mem_dedup, List.mem_map] at hk
  obtain ⟨r, _, rfl⟩ := hk
  rfl

/-- Under "at most one attendance row per (session, student)", a group's
row count equals its number of distinct sessions. -/
theorem count_eq_dedup_metas (df : List AttRow) (k : List Str)
    (hnd : (df.map (fun r => (r.metaId, r.regd))).Nodup) :
    (df.filter (fun r => keyOf r = k)).length
      = ((df.filter (fun r => keyOf r = k)).map (fun r => r.metaId)).dedup.length := by
  have hsub : (df.filter (fun r => keyOf r = k)).Sublist df := List.filter_sublist df
  have hnd_df : df.Nodup := List.Nodup.of_map _ hnd
  have hinj : ∀ x ∈ df.filter (fun r => keyOf r = k),
      ∀ y ∈ df.filter (fun r => keyOf r = k), x.metaId = y.metaId → x = y := by
    intro x hx y hy hxy
    have hkx : keyOf x = k := by simpa using (List.mem_filter.mp hx).2
    have hky : keyOf y = k := by simpa using (List.mem_filter.mp hy).2
    have hkk := hkx.trans hky.symm
    simp only [keyOf, List.cons.injEq] at hkk
    exact List.inj_on_of_nodup_map hnd (hsub.subset hx) (hsub.subset hy)
      (by rw [hxy, hkk.1])
  have hids : ((df.filter (fun r => keyOf r = k)).map (fun r => r.metaId)).Nodup :=
    (hnd_df.sublist hsub).map_on hinj
  rw [List.Nodup.dedup hids, List.length_map]

/-- The spec's concrete scenario: section II-CSE_A, two sessions on
2024-01-01 (periods 1 and 2); R1 present in period 1 and absent in
period 2; R2 absent in both. -/
def scenarioDB : DB :=
  ⟨[⟨1, "II-CSE_A".toList, "2024-01-01".toList, "1".toList, "fac1".toList, "c1".toList⟩,
    ⟨2, "II-CSE_A".toList, "2024-01-01".toList, "2".toList, "fac1".toList, "c2".toList⟩],
   [⟨1, "R1".toList, "Alice".toList, true, "F1".toList, "91".toList⟩,
    ⟨1, "R2".toList, "Bob".toList, false, "F2".toList, "92".toList⟩,
    ⟨2, "R1".toList, "Alice".toList, false, "F1".toList, "91".toList⟩,
    ⟨2, "R2".toList, "Bob".toList, false, "F2".toList, "92".toList⟩], [], 3⟩

/-- C1: the multi-session roll-up groups the window's absent rows by
(Regd. No., Name, Parent Name, Parent Phone); each output row's
Period_Date is the comma-joined, sorted, de-duplicated set of
`P{period} ({date})` labels of the group, its Absence Count is the
group's row count — which, when each (session, student) pair carries at
most one row, is exactly the number of sessions in which the student has
a `present=false` row — and the output is sorted by Absence Count
descending.  In the spec's concrete scenario the output is R2 (count 2)
before R1 (count 1) with the stated Period_Date strings. -/
theorem agg_rollup_correct :
    (∀ (db : DB) (sec start stop : Str),
      ((agg_date_range db sec start stop).Sorted countDescLe)
      ∧ (∀ row ∈ agg_date_range db sec start stop,
          row.count = ((window_absent db sec start stop).filter
              (fun r => keyOf r = [row.regd, row.name, row.parentName, row.parentPhone])).length
          ∧ row.periodDate = joinCommaSep (sortStrs
              (((window_absent db sec start stop).filter
                (fun r => keyOf r = [row.regd, row.name, row.parentName, row.parentPhone])).map
                (label_of (fetch_metas_for_section db sec start stop))).dedup))
      ∧ ((((window_absent db sec start stop).map (fun r => (r.metaId, r.regd))).Nodup) →
          ∀ row ∈ agg_date_range db sec start stop,
            row.count = (((window_absent db sec start stop).filter
                (fun r => keyOf r = [row.regd, row.name, row.parentName, row.parentPhone])).map
                  (fun r => r.metaId)).dedup.length)
      ∧ (∀ r ∈ window_absent db sec start stop,
          ∃ m ∈ fetch_metas_for_section db sec start stop, m.id = r.metaId
            ∧ label_of (fetch_metas_for_section db sec start stop) r
                = "P".toList ++ m.period ++ " (".toList ++ m.date ++ ")".toList))
    ∧ agg_date_range scenarioDB "II-CSE_A".toList "2024-01-01".toList "2024-01-01".toList
        = [⟨"R2".toList, "Bob".toList, "F2".toList, "92".toList,
            "P1 (2024-01-01), P2 (2024-01-01)".toList, 2⟩,
           ⟨"R1".toList, "Alice".toList, "F1".toList, "91".toList,
            "P2 (2024-01-01)".toList, 1⟩] := by
  constructor
  · intro db sec start stop
    have hmem : ∀ row ∈ agg_date_range db sec start stop,
        ∃ k ∈ ((window_absent db sec start stop).map keyOf).dedup,
          row = AggRow.mk (k.getD 0 []) (k.getD 1 []) (k.getD 2 []) (k.getD 3 [])
            (joinCommaSep (sortStrs (((window_absent db sec start stop).filter
              (fun r => keyOf r = k)).map
                (label_of (fetch_metas_for_section db sec start stop))).dedup))
            ((window_absent db sec start stop).filter (fun r => keyOf r = k)).length := by
      intro row hrow
      unfold agg_date_range at hrow
      rw [List.mem_insertionSort] at hrow
      unfold agg_group_rows at hrow
      rw [List.mem_map] at hrow
      obtain ⟨k, hk, rfl⟩ := hrow
      unfold sortKeys at hk
      rw [List.mem_insertionSort] at hk
      exact ⟨k, hk, rfl⟩
    refine ⟨?_, ?_, ?_, ?_⟩
    · exact List.sorted_insertionSort _ _
    · intro row hrow
      obtain ⟨k, hk, rfl⟩ := hmem row hrow
      have hkey := key_rebuild (window_absent db sec start stop) k hk
      constructor
      · simp only [AggRow.mk.injEq]
        rw [hkey]
      · simp only [AggRow.mk.injEq]
        rw [hkey]
    · intro hnd row hrow
      obtain ⟨k, hk, rfl⟩ := hmem row hrow
      have hkey := key_rebuild (window_absent db sec start stop) k hk
      simp only [AggRow.mk.injEq]
      rw [hkey]
      exact count_eq_dedup_metas _ k hnd
    · intro r hr
      have hmm := (List.mem_filter.mp hr).2
      simp only [decide_eq_true_eq] at hmm
      obtain ⟨-, hin⟩ := hmm
      rw [List.mem_map] at hin
      obtain ⟨m0, hm0, hid⟩ := hin
      have hsome : ((fetch_metas_for_section db sec start stop).find?
          (fun m => m.id = r.metaId)).isSome := by
        rw [List.find?_isSome]
        exact ⟨m0, hm0, by simpa using hid⟩
      obtain ⟨m1, hm1⟩ := Option.isSome_iff_exists.mp hsome
      refine ⟨m1, List.mem_of_find?_eq_some hm1, ?_, ?_⟩
      · simpa using List.find?_some hm1
      · unfold label_of
        rw [hm1]
  · decide

/-- Witness for C1's session-count conjunct at the scenario store: R2's
Absence Count 2 equals the number of distinct sessions with an absent R2
row (the store has one row per session and student). -/
theorem agg_rollup_correct_witness :
    (AggRow.mk "R2".toList "Bob".toList "F2".toList "92".toList
        "P1 (2024-01-01), P2 (2024-01-01)".toList 2).count
      = (((window_absent scenarioDB "II-CSE_A".toList "2024-01-01".toList
            "2024-01-01".toList).filter
          (fun r => keyOf r = ["R2".toList, "Bob".toList, "F2".toList, "92".toList])).map
            (fun r => r.metaId)).dedup.length :=
  (agg_rollup_correct.1 scenarioDB "II-CSE_A".toList "2024-01-01".toList
      "2024-01-01".toList).2.2.1 (by decide)
    (AggRow.mk "R2".toList "Bob".toList "F2".toList "92".toList
      "P1 (2024-01-01), P2 (2024-01-01)".toList 2) (by decide)

/-- C9: the roll-up is a deterministic pure function of the store's meta
and row tables — two computations over equal metas and equal-up-to-order
rows produce identical outputs, including row order (so, in particular,
running it twice over unchanged store data is an identity, and the
unspecified order in which SQLite returns the absent rows cannot change
the report). -/
theorem agg_rollup_deterministic :
    ∀ (db db2 : DB) (sec start stop : Str),
      db.metas = db2.metas → db.rows.Perm db2.rows →
      agg_date_range db sec start stop = agg_date_range db2 sec start stop := by
  intro db db2 sec start stop hm hp
  have hfetch : fetch_metas_for_section db sec start stop
      = fetch_metas_for_section db2 sec start stop := by
    unfold fetch_metas_for_section
    rw [hm]
  have hdf : (window_absent db sec start stop).Perm (window_absent db2 sec start stop) := by
    unfold window_absent
    rw [hfetch]
    exact hp.filter _
  have hgroup : ∀ metas : List MetaRow,
      agg_group_rows metas (window_absent db sec start stop)
        = agg_group_rows metas (window_absent db2 sec start stop) := by
    intro metas
    unfold agg_group_rows
    have hkeys : sortKeys ((window_absent db sec start stop).map keyOf).dedup
        = sortKeys ((window_absent db2 sec start stop).map keyOf).dedup := by
      unfold sortKeys
      refine List.eq_of_perm_of_sorted ?_
        (List.sorted_insertionSort _ _) (List.sorted_insertionSort _ _)
      exact ((List.perm_insertionSort _ _).trans ((hdf.map keyOf).dedup)).trans
        (List.perm_insertionSort _ _).symm
    rw [hkeys]
    apply List.map_congr_left
    intro k _
    have hgrp : ((window_absent db sec start stop).filter (fun r => keyOf r = k)).Perm
        ((window_absent db2 sec start stop).filter (fun r => keyOf r = k)) := hdf.filter _
    have hlbl : sortStrs (((window_absent db sec start stop).filter
          (fun r => keyOf r = k)).map (label_of metas)).dedup
        = sortStrs (((window_absent db2 sec start stop).filter
          (fun r => keyOf r = k)).map (label_of metas)).dedup := by
      unfold sortStrs
      refine List.eq_of_perm_of_sorted ?_
        (List.sorted_insertionSort _ _) (List.sorted_insertionSort _ _)
      exact ((List.perm_insertionSort _ _).trans (((hgrp.map _).dedup))).trans
        (List.perm_insertionSort _ _).symm
    rw [hlbl, hgrp.length_eq]
  unfold agg_date_range
  rw [hfetch, hgroup (fetch_metas_for_section db2 sec start stop)]

/-- The scenario store with its attendance rows listed in a different
order (as SQLite is free to return them). -/
def scenarioDB2 : DB :=
  ⟨scenarioDB.metas,
   [⟨2, "R2".toList, "Bob".toList, false, "F2".toList, "92".toList⟩,
    ⟨1, "R2".toList, "Bob".toList, false, "F2".toList, "92".toList⟩,
    ⟨2, "R1".toList, "Alice".toList, false, "F1".toList, "91".toList⟩,
    ⟨1, "R1".toList, "Alice".toList, true, "F1".toList, "91".toList⟩], [], 3⟩

/-- Witness for C9 at the scenario store and a row permutation of it. -/
theorem agg_rollup_deterministic_witness :
    agg_date_range scenarioDB "II-CSE_A".toList "2024-01-01".toList "2024-01-01".toList
      = agg_date_range scenarioDB2 "II-CSE_A".toList "2024-01-01".toList "2024-01-01".toList :=
  agg_rollup_deterministic scenarioDB scenarioDB2 "II-CSE_A".toList "2024-01-01".toList
    "2024-01-01".toList rfl (by decide)

/-! ## Coordinator period-pivoted roll-up (app.py lines 1152-1252)

The coordinator dashboard pivots the window's absent rows to one column
per period: `groupby(base + Period).size().unstack(fill_value=0)`, a loop
adding every missing period of the fixed enumeration `"1".."6"` as an
explicit zero column, a selection of exactly those six columns, an
`Absence Count` summing them, a compact `", ".join(sorted(set(...)))`
summary of `"{date} (P{period})"` labels merged back on the group key,
and a final sort by (Absence Count desc, Regd. No. asc). -/

/-- The fixed period enumeration of the pivot. -/
def periodEnum : List Str :=
  ["1".toList, "2".toList, "3".toList, "4".toList, "5".toList, "6".toList]

/-- `meta_map[x]["period"]` for a row (periods are already strings). -/
def period_of (metas : List MetaRow) (r : AttRow) : Str :=
  match metas.find? (fun m => m.id = r.metaId) with
  | some m => m.period
  | none => []

/-- The coordinator summary label `f"{date} (P{period})"`. -/
def dpLabel (metas : List MetaRow) (r : AttRow) : Str :=
  match metas.find? (fun m => m.id = r.metaId) with
  | some m => m.date ++ " (P".toList ++ m.period ++ ")".toList
  | none => []

/-- The columns `unstack` produces: the distinct periods present in the
data, in ascending order. -/
def pivotCols (metas : List MetaRow) (df : List AttRow) : List Str :=
  sortStrs (df.map (period_of metas)).dedup

/-- The columns after the `for p in ["1",...,"6"]: if p not in pivot.columns`
loop added the missing ones as zero columns. -/
def pivotColsFilled (metas : List MetaRow) (df : List AttRow) : List Str :=
  pivotCols metas df ++ periodEnum.filter (fun p => ¬ p ∈ pivotCols metas df)

/-- One output row of the coordinator pivot: the group key, the six
`(period, count)` cells selected by `pivot[["1",...,"6"]]`, the Absence
Count (their sum) and the Periods Absent summary. -/
structure CoordRow where
  regd : Str
  name : Str
  parentName : Str
  parentPhone : Str
  cells : List (Str × Nat)
  count : Nat
  summary : Str
deriving DecidableEq

/-- `sort_values(["Absence Count", "Regd. No."], ascending=[False, True])`. -/
def coordLe (a b : CoordRow) : Prop :=
  b.count < a.count ∨ (a.count = b.count ∧ a.regd ≤ b.regd)

instance : DecidableRel coordLe := fun a b =>
  inferInstanceAs (Decidable (b.count < a.count ∨ (a.count = b.count ∧ a.regd ≤ b.regd)))

/-- The pivoted, merged and sorted coordinator table: one row per group
key; cells are the `pivot[["1",...,"6"]]` selection (a count per
enumerated period, `unstack(fill_value=0)` and the zero-column loop
making absent periods explicit zeros), the Absence Count is
`agg[period_cols].sum(axis=1)`, and the summary is the compact merge. -/
def coord_rows (metas : List MetaRow) (df : List AttRow) : List CoordRow :=
  List.insertionSort coordLe
    ((sortKeys (df.map keyOf).dedup).map (fun k =>
      CoordRow.mk (k.getD 0 []) (k.getD 1 []) (k.getD 2 []) (k.getD 3 [])
        (periodEnum.map (fun p =>
          (p, ((df.filter (fun r => keyOf r = k)).filter
            (fun r => period_of metas r = p)).length)))
        ((periodEnum.map (fun p =>
          ((df.filter (fun r => keyOf r = k)).filter
            (fun r => period_of metas r = p)).length)).sum)
        (joinCommaSep (sortStrs ((df.filter (fun r => keyOf r = k)).map
          (dpLabel metas)).dedup))))

/-- The Coordinator dashboard report: `none` models the two `st.stop`
informational exits (no sessions in range / no absentees in range). -/
def coordinator_report (db : DB) (sec start stop : Str) : Option (List CoordRow) :=
  let metas := fetch_metas_for_section db sec start stop
  if metas = [] then none
  else
    let df := window_absent db sec start stop
    if df = [] then none
    else some (coord_rows metas df)

/-- Splitting a filtered count at a fresh key: counts for `p` and for the
remaining keys add up. -/
theorem length_filter_cons_key (f : AttRow → Str) (p : Str) (ps : List Str)
    (hp : p ∉ ps) (grp : List AttRow) :
    (grp.filter (fun r => f r = p)).length + (grp.filter (fun r => f r ∈ ps)).length
      = (grp.filter (fun r => f r ∈ p :: ps)).length := by
  induction grp with
  | nil => simp
  | cons r t ih =>
    rw [List.filter_cons, List.filter_cons, List.filter_cons]
    by_cases h1 : f r = p
    · have h2 : ¬ f r ∈ ps := by rw [h1]; exact hp
      have h4 : f r ∈ p :: ps := by rw [h1]; exact List.mem_cons_self p ps
      rw [if_pos (by simpa using h1), if_neg (by simpa using h2),
        if_pos (by simpa using h4)]
      simp only [List.length_cons]
      omega
    · by_cases h3 : f r ∈ ps
      · have h4 : f r ∈ p :: ps := List.mem_cons_of_mem p h3
        rw [if_neg (by simpa using h1), if_pos (by simpa using h3),
          if_pos (by simpa using h4)]
        simp only [List.length_cons]
        omega
      · have h4 : ¬ f r ∈ p :: ps := by
          rw [List.mem_cons]
          exact fun hc => hc.elim h1 h3
        rw [if_neg (by simpa using h1), if_neg (by simpa using h3),
          if_neg (by simpa using h4)]
        exact ih

/-- The per-period counts over a duplicate-free key list sum to the count
of rows whose key lies in the list. -/
theorem sum_period_counts (f : AttRow → Str) (grp : List AttRow) :
    ∀ ps : List Str, ps.Nodup →
      (ps.map (fun p => (grp.filter (fun r => f r = p)).length)).sum
        = (grp.filter (fun r => f r ∈ ps)).length := by
  intro ps hnd
  induction ps with
  | nil => simp
  | cons p ps ih =>
    rw [List.nodup_cons] at hnd
    simp only [List.map_cons, List.sum_cons, ih hnd.2]
    exact length_filter_cons_key f p ps hnd.1 grp

/-- C7: whenever the window holds at least one absent row, the coordinator
pivot carries one explicit column per period of the fixed enumeration
`"1".."6"` (a period with zero absences appears as an explicit 0 cell,
never omitted — the zero-column loop guarantees every enumerated period is
among the pivot's columns); each row's Absence Count equals the sum of its
six period cells, which is the number of the student's absent rows whose
period lies in the enumeration; and the textual summary is the
comma-joined, de-duplicated (sorted) set of `{date} (P{period})` labels. -/
theorem coordinator_pivot_correct (db : DB) (sec start stop : Str)
    (hm : fetch_metas_for_section db sec start stop ≠ [])
    (hd : window_absent db sec start stop ≠ []) :
    (∀ p ∈ periodEnum,
      p ∈ pivotColsFilled (fetch_metas_for_section db sec start stop)
          (window_absent db sec start stop))
    ∧ coordinator_report db sec start stop ≠ none
    ∧ ∀ g ∈ (coordinator_report db sec start stop).getD [],
        g.cells = periodEnum.map (fun p =>
            (p, (((window_absent db sec start stop).filter
              (fun r => keyOf r = [g.regd, g.name, g.parentName, g.parentPhone])).filter
                (fun r => period_of (fetch_metas_for_section db sec start stop) r
                  = p)).length))
        ∧ g.count = (g.cells.map Prod.snd).sum
        ∧ g.count = (((window_absent db sec start stop).filter
            (fun r => keyOf r = [g.regd, g.name, g.parentName, g.parentPhone])).filter
              (fun r => period_of (fetch_metas_for_section db sec start stop) r
                ∈ periodEnum)).length
        ∧ g.summary = joinCommaSep (sortStrs (((window_absent db sec start stop).filter
            (fun r => keyOf r = [g.regd, g.name, g.parentName, g.parentPhone])).map
              (dpLabel (fetch_metas_for_section db sec start stop))).dedup) := by
  have hrep : coordinator_report db sec start stop
      = some (coord_rows (fetch_metas_for_section db sec start stop)
          (window_absent db sec start stop)) := by
    simp only [coordinator_report, if_neg hm, if_neg hd]
  refine ⟨?_, ?_, ?_⟩
  · intro p hp
    unfold pivotColsFilled
    rw [List.mem_append]
    by_cases hc : p ∈ pivotCols (fetch_metas_for_section db sec start stop)
        (window_absent db sec start stop)
    · exact Or.inl hc
    · exact Or.inr (List.mem_filter.mpr ⟨hp, by simpa using hc⟩)
  · rw [hrep]
    exact Option.some_ne_none _
  · rw [hrep]
    intro g hg
    simp only [Option.getD_some] at hg
    unfold coord_rows at hg
    rw [List.mem_insertionSort, List.mem_map] at hg
    obtain ⟨k, hk, rfl⟩ := hg
    unfold sortKeys at hk
    rw [List.mem_insertionSort] at hk
    have hkey := key_rebuild (window_absent db sec start stop) k hk
    refine ⟨?_, ?_, ?_, ?_⟩
    · simp only
      rw [hkey]
    · simp only [List.map_map]
      rfl
    · simp only
      rw [hkey]
      exact sum_period_counts _ _ periodEnum (by decide)
    · simp only
      rw [hkey]

/-- Store for the C7 witness: one session in period 2, one absent row. -/
def c7DB : DB :=
  ⟨[⟨1, "S".toList, "2024-01-10".toList, "2".toList, "t".toList, "c".toList⟩],
   [⟨1, "R1".toList, "A".toList, false, "F".toList, "9".toList⟩], [], 2⟩

/-- The single coordinator row over `c7DB`: an explicit 0 cell for every
period except period 2. -/
def c7Row : CoordRow :=
  ⟨"R1".toList, "A".toList, "F".toList, "9".toList,
   [("1".toList, 0), ("2".toList, 1), ("3".toList, 0),
    ("4".toList, 0), ("5".toList, 0), ("6".toList, 0)],
   1, "2024-01-10 (P2)".toList⟩

/-- Witness for C7 at the concrete store `c7DB`. -/
theorem coordinator_pivot_correct_witness :
    coordinator_report c7DB "S".toList "2024-01-01".toList "2024-01-31".toList ≠ none
    ∧ c7Row.count = (c7Row.cells.map Prod.snd).sum :=
  ⟨(coordinator_pivot_correct c7DB "S".toList "2024-01-01".toList "2024-01-31".toList
      (by decide) (by decide)).2.1,
    ((coordinator_pivot_correct c7DB "S".toList "2024-01-01".toList "2024-01-31".toList
      (by decide) (by decide)).2.2 c7Row (by decide)).2.1⟩

/-! ## Report window arithmetic (app.py lines 952-956, 981-989)

The weekly branch computes `start_week = week_anchor - timedelta(days=6)`
and `end_week = week_anchor`; the monthly branch computes
`month_start = any_date.replace(day=1)`, a next-month start that rolls
December into January of the following year, and
`month_end = next_month_start - timedelta(days=1)`.  Python `date`
arithmetic is modelled by the proleptic Gregorian calendar: an explicit
days-in-month table with the leap-year rule and day-stepping functions. -/

/-- One calendar date. -/
structure YMD where
  year : Int
  month : Nat
  day : Nat
deriving DecidableEq

/-- Gregorian leap-year rule. -/
def isLeap (y : Int) : Bool :=
  y % 4 = 0 ∧ (y % 100 ≠ 0 ∨ y % 400 = 0)

/-- Length of a month in the Gregorian calendar. -/
def daysInMonth (y : Int) : Nat → Nat
  | 1 => 31
  | 2 => if isLeap y then 29 else 28
  | 3 => 31
  | 4 => 30
  | 5 => 31
  | 6 => 30
  | 7 => 31
  | 8 => 31
  | 9 => 30
  | 10 => 31
  | 11 => 30
  | 12 => 31
  | _ => 0

/-- A well-formed calendar date. -/
def ValidYMD (d : YMD) : Prop :=
  1 ≤ d.month ∧ d.month ≤ 12 ∧ 1 ≤ d.day ∧ d.day ≤ daysInMonth d.year d.month

instance (d : YMD) : Decidable (ValidYMD d) :=
  inferInstanceAs (Decidable (_ ∧ _ ∧ _ ∧ _))

/-- The previous calendar day. -/
def predDay (d : YMD) : YMD :=
  if 2 ≤ d.day then ⟨d.year, d.month, d.day - 1⟩
  else if 2 ≤ d.month then ⟨d.year, d.month - 1, daysInMonth d.year (d.month - 1)⟩
  else ⟨d.year - 1, 12, 31⟩

/-- The next calendar day. -/
def succDay (d : YMD) : YMD :=
  if d.day < daysInMonth d.year d.month then ⟨d.year, d.month, d.day + 1⟩
  else if d.month < 12 then ⟨d.year, d.month + 1, 1⟩
  else ⟨d.year + 1, 1, 1⟩

/-- `date - timedelta(days=n)`. -/
def subDays (d : YMD) (n : Nat) : YMD := predDay^[n] d

/-- Weekly Report window: `(anchor - 6 days, anchor)`. -/
def week_window (anchor : YMD) : YMD × YMD := (subDays anchor 6, anchor)

/-- Monthly Report window: `(month_start, next_month_start - 1 day)` with
the December-to-January rollover of app.py lines 984-987. -/
def month_window (anchor : YMD) : YMD × YMD :=
  let monthStart : YMD := ⟨anchor.year, anchor.month, 1⟩
  let nextMonthStart : YMD :=
    if monthStart.month = 12 then ⟨monthStart.year + 1, 1, 1⟩
    else ⟨monthStart.year, monthStart.month + 1, 1⟩
  (monthStart, predDay nextMonthStart)

theorem daysInMonth_pos (y : Int) (m : Nat) (h1 : 1 ≤ m) (h2 : m ≤ 12) :
    1 ≤ daysInMonth y m := by
  interval_cases m
  all_goals simp [daysInMonth]
  split <;> omega

theorem valid_predDay (d : YMD) (h : ValidYMD d) : ValidYMD (predDay d) := by
  obtain ⟨h1, h2, h3, h4⟩ := h
  obtain ⟨y, m, dd⟩ := d
  dsimp only at h1 h2 h3 h4
  unfold predDay
  by_cases hd : 2 ≤ dd
  · rw [if_pos hd]
    refine ⟨h1, h2, ?_, ?_⟩
    · show 1 ≤ dd - 1
      omega
    · show dd - 1 ≤ daysInMonth y m
      omega
  · rw [if_neg hd]
    by_cases hmth : 2 ≤ m
    · rw [if_pos hmth]
      refine ⟨?_, ?_, ?_, ?_⟩
      · show 1 ≤ m - 1
        omega
      · show m - 1 ≤ 12
        omega
      · show 1 ≤ daysInMonth y (m - 1)
        exact daysInMonth_pos y (m - 1) (by omega) (by omega)
      · exact Nat.le_refl _
    · rw [if_neg hmth]
      refine ⟨?_, ?_, ?_, ?_⟩
      · show (1 : Nat) ≤ 12
        omega
      · show (12 : Nat) ≤ 12
        omega
      · show (1 : Nat) ≤ 31
        omega
      · show (31 : Nat) ≤ daysInMonth (y - 1) 12
        simp [daysInMonth]

theorem succ_predDay (d : YMD) (h : ValidYMD d) : succDay (predDay d) = d := by
  obtain ⟨h1, h2, h3, h4⟩ := h
  obtain ⟨y, m, dd⟩ := d
  dsimp only at h1 h2 h3 h4
  unfold predDay
  dsimp only
  by_cases hd : 2 ≤ dd
  · rw [if_pos hd]
    unfold succDay
    dsimp only
    rw [if_pos (by omega)]
    congr 1
    omega
  · rw [if_neg hd]
    by_cases hmth : 2 ≤ m
    · rw [if_pos hmth]
      unfold succDay
      dsimp only
      rw [if_neg (by omega), if_pos (by omega)]
      congr 1 <;> omega
    · rw [if_neg hmth]
      unfold succDay
      dsimp only
      have h31 : daysInMonth (y - 1) 12 = 31 := by simp [daysInMonth]
      rw [h31, if_neg (by omega), if_neg (by omega)]
      congr 1 <;> omega

theorem valid_subDays (d : YMD) (n : Nat) (h : ValidYMD d) : ValidYMD (subDays d n) := by
  induction n with
  | zero => exact h
  | succ n ih =>
    unfold subDays at *
    rw [Function.iterate_succ_apply']
    exact valid_predDay _ ih

theorem succ_iterate_subDays : ∀ (n : Nat) (d : YMD), ValidYMD d →
    succDay^[n] (subDays d n) = d := by
  intro n
  induction n with
  | zero => intro d _; rfl
  | succ n ih =>
    intro d h
    unfold subDays at *
    rw [Function.iterate_succ_apply predDay n d, Function.iterate_succ_apply']
    rw [ih (predDay d) (valid_predDay d h)]
    exact succ_predDay d h

/-- C6: for every valid anchor date, the week window runs from the anchor
minus 6 days through the anchor inclusive — exactly 7 calendar days, since
stepping the start forward 6 days returns the anchor — and the month
window runs from the first through the last calendar day of the anchor's
month: its end is `next-month-start - 1 day`, which lands on
`daysInMonth`, so a December anchor rolls into January of year+1 (end
December 31) and a February anchor's window ends on the 29th exactly in
leap years. -/
theorem report_windows_correct :
    ∀ anchor : YMD, ValidYMD anchor →
      ((week_window anchor).2 = anchor
        ∧ (week_window anchor).1 = subDays anchor 6
        ∧ succDay^[6] (week_window anchor).1 = anchor)
      ∧ ((month_window anchor).1 = ⟨anchor.year, anchor.month, 1⟩
        ∧ (month_window anchor).2
            = ⟨anchor.year, anchor.month, daysInMonth anchor.year anchor.month⟩
        ∧ (anchor.month = 12 → (month_window anchor).2 = ⟨anchor.year, 12, 31⟩)
        ∧ (anchor.month = 2 →
            (month_window anchor).2.day = if isLeap anchor.year then 29 else 28)) := by
  intro anchor h
  have hv := h
  obtain ⟨h1, h2, h3, h4⟩ := h
  have hend : (month_window anchor).2
      = ⟨anchor.year, anchor.month, daysInMonth anchor.year anchor.month⟩ := by
    obtain ⟨y, m, dd⟩ := anchor
    dsimp only at h1 h2 h3 h4
    unfold month_window
    dsimp only
    by_cases h12 : m = 12
    · rw [if_pos h12]
      unfold predDay
      dsimp only
      rw [if_neg (by omega), if_neg (by omega)]
      rw [h12]
      simp [daysInMonth]
    · rw [if_neg h12]
      unfold predDay
      dsimp only
      rw [if_neg (by omega), if_pos (by omega)]
      simp only [Nat.add_sub_cancel]
  have hw1 : (week_window anchor).1 = subDays anchor 6 := by
    unfold week_window
    rfl
  refine ⟨⟨rfl, hw1, ?_⟩, rfl, hend, ?_, ?_⟩
  · rw [hw1]
    exact succ_iterate_subDays 6 anchor hv
  · intro h12
    rw [hend, h12]
    simp [daysInMonth]
  · intro hfeb
    rw [hend, hfeb]
    simp [daysInMonth]

/-- Witness for C6: the week anchored at 2024-01-07 starts 2024-01-01 and
steps back to the anchor in 6 days; the month window of 2024-02-15 ends
2024-02-29 (leap year) while that of 2023-02-10 ends 2023-02-28. -/
theorem report_windows_correct_witness :
    (week_window ⟨2024, 1, 7⟩).1 = subDays ⟨2024, 1, 7⟩ 6
    ∧ succDay^[6] (week_window ⟨2024, 1, 7⟩).1 = ⟨2024, 1, 7⟩
    ∧ (month_window ⟨2024, 2, 15⟩).2 = ⟨2024, 2, daysInMonth 2024 2⟩
    ∧ (month_window ⟨2023, 2, 10⟩).2.day = if isLeap 2023 then 29 else 28 :=
  ⟨(report_windows_correct ⟨2024, 1, 7⟩ (by decide)).1.2.1,
    (report_windows_correct ⟨2024, 1, 7⟩ (by decide)).1.2.2,
    (report_windows_correct ⟨2024, 2, 15⟩ (by decide)).2.2.1,
    (report_windows_correct ⟨2023, 2, 10⟩ (by decide)).2.2.2.2 rfl⟩

end AttendPro
